import Mathlib

/-
Verification of the gvisor-tap-vsock gateway against its specification.

The development shallowly embeds the Go sources:
  - pkg/services/forwarder (UDP forwarder, file part_000),
  - pkg/virtualnetwork/ssh_forwarder.go (SSH tunnel forwarder),
  - pkg/sshclient (bastion creation, known-hosts lookup),
  - cmd/gvproxy/main.go (flag validation, exit codes, run loop).
Machine maps are embedded as Lean functions, Go loops as fuel or
measure-based recursion, and effects (dial results, context
cancellation, filesystem probes) as explicit boolean oracles.
-/

namespace GvProxy

/-! ## UDP forwarder (pkg/services/forwarder, part_000) -/

/-- An IPv4 address as its 32-bit numeric value. -/
abbrev IPv4 := Nat

/-- Build an IPv4 address value from its four dotted-quad bytes. -/
def mkIPv4 (a b c d : Nat) : IPv4 :=
  (((a % 256) * 256 + b % 256) * 256 + c % 256) * 256 + d % 256

/-- Modelled from the spec: the helper linkLocal() is defined in a
forwarder-package file that is not among the provided sources; per the
spec it denotes the subnet 169.254.0.0/16, and Contains holds exactly
when the top 16 bits of the address are 169.254. -/
def linkLocalContains (ip : IPv4) : Bool :=
  ip / 65536 % 65536 == 169 * 256 + 254

/-- The gvisor TransportEndpointID of a forwarded flow, as seen by the
stack: LocalAddress/LocalPort are the guest's chosen destination. -/
structure FlowID where
  localAddress : IPv4
  localPort : Nat
  remoteAddress : IPv4
  remotePort : Nat
deriving DecidableEq, Repr

/-- Outcome of the UDP forwarder handler for one flow: the handler
either returns before creating an endpoint (link-local destination),
fails to create the endpoint, or starts a proxy dialing the host at a
given address and port. -/
inductive UDPOutcome where
  | droppedLinkLocal : UDPOutcome
  | endpointFailed : UDPOutcome
  | proxied (dialAddress : IPv4) (dialPort : Nat) : UDPOutcome
deriving DecidableEq, Repr

/-- Embedding of the handler installed by forwarder.UDP: check the
link-local guard on the stack-observed local address, apply the NAT
map under the lock, create the endpoint, then dial the host at the
(possibly rewritten) address and the flow's original local port.
The nat argument is the Go map read, the endpointOk flag the success
of r.CreateEndpoint. -/
def udpHandler (nat : IPv4 → Option IPv4) (endpointOk : Bool) (id : FlowID) :
    UDPOutcome :=
  let localAddress := id.localAddress
  if linkLocalContains localAddress then
    UDPOutcome.droppedLinkLocal
  else
    let localAddress :=
      match nat localAddress with
      | some replaced => replaced
      | none => localAddress
    if endpointOk then
      UDPOutcome.proxied localAddress id.localPort
    else
      UDPOutcome.endpointFailed

/-! ## Bidirectional pump (ssh_forwarder.go, forward and io.Copy) -/

/-- One observable action of the pump on its two endpoints. -/
inductive PumpEvent where
  | write (bytes : List Nat)
  | closeWrite
  | closeSource
deriving DecidableEq, Repr

/-- A read side that yields a sequence of chunks and then terminates,
either by end-of-stream or by a read error; io.Copy stops in both
cases. -/
structure PumpSource where
  chunks : List (List Nat)
  readErrorAtEnd : Bool
deriving DecidableEq, Repr

/-- Embedding of the io.Copy loop: read a chunk, write it, repeat; a
failed write stops the copy (the failing write delivers nothing in
this model). writeOk gives the result of the k-th write. -/
def copyChunks (writeOk : Nat → Bool) : Nat → List (List Nat) → List (List Nat)
  | _, [] => []
  | k, c :: rest =>
    if writeOk k then c :: copyChunks writeOk (k + 1) rest else []

/-- Embedding of forward(src, dest): run io.Copy from src to dest,
then call dest.CloseWrite, then (deferred) src.Close. The trace lists
the writes delivered to dest followed by the two closes. -/
def forwardTrace (writeOk : Nat → Bool) (src : PumpSource) : List PumpEvent :=
  (copyChunks writeOk 0 src.chunks).map PumpEvent.write
    ++ [PumpEvent.closeWrite, PumpEvent.closeSource]

/-- The bytes a trace delivers to the destination, in order. -/
def deliveredBytes : List PumpEvent → List Nat
  | [] => []
  | PumpEvent.write bs :: rest => bs ++ deliveredBytes rest
  | _ :: rest => deliveredBytes rest

/-- The default NAT table of main.go: the virtual host IP rewritten to
loopback. -/
def natDefault : IPv4 → Option IPv4 := fun a =>
  if a = mkIPv4 192 168 127 254 then some (mkIPv4 127 0 0 1) else none

/-- A sample guest flow towards the virtual host IP. -/
def flowToHost : FlowID :=
  { localAddress := mkIPv4 192 168 127 254, localPort := 9000
    remoteAddress := mkIPv4 192 168 127 2, remotePort := 40000 }

/-- A sample guest flow towards a link-local destination. -/
def flowLinkLocal : FlowID :=
  { localAddress := mkIPv4 169 254 1 1, localPort := 53
    remoteAddress := mkIPv4 192 168 127 2, remotePort := 40001 }

/-! ## SSH tunnel forwarder (ssh_forwarder.go) -/

/-- Observable actions of connectForward on the bastion and the clock. -/
inductive SSHEvent where
  | dialChannel
  | probe (requestName : String)
  | reconnect
  | sleepMs (ms : Nat)
deriving DecidableEq, Repr

/-- The global request name connectForward uses to probe bastion
liveness. -/
def aliveRequest : String := "alive@gvproxy"

/-- Oracle for the effects of one AcceptAndTunnel call: results of the
k-th channel dial, liveness probe, bastion reconnect, and sleep (a
sleep yields false when the context is cancelled before the timer). -/
structure TunnelEnv where
  dialOk : Nat → Bool
  probeOk : Nat → Bool
  reconnectOk : Nat → Bool
  sleepAlive : Nat → Bool

/-- Counters of consumed effects plus the event trace so far. -/
structure CFState where
  dials : Nat
  probes : Nat
  recons : Nat
  sleeps : Nat
  trace : List SSHEvent
deriving DecidableEq, Repr

/-- The state at the start of a connectForward call. -/
def cfStart : CFState := { dials := 0, probes := 0, recons := 0, sleeps := 0, trace := [] }

/-- Embedding of the inner loop of connectForward (for bastionRetries
starting at 1): call bastion.Reconnect; stop on success; if more than
2 retries were made, or the 200 ms sleep is cut short by cancellation,
give up. The loop makes at most 3 iterations because bastionRetries
strictly increases; the fuel argument (3 at entry) only bounds the
recursion and is never exhausted first, see reconnectLoop_fuel_succ. -/
def reconnectLoop (env : TunnelEnv) : Nat → CFState → Nat → Bool × CFState
  | 0, st, _ => (false, st)
  | fuel + 1, st, bastionRetries =>
    let ok := env.reconnectOk st.recons
    let st1 : CFState := { st with recons := st.recons + 1,
                                   trace := st.trace ++ [SSHEvent.reconnect] }
    if ok then (true, st1)
    else if 2 < bastionRetries then (false, st1)
    else
      let alive := env.sleepAlive st1.sleeps
      let st2 : CFState := { st1 with sleeps := st1.sleeps + 1,
                                      trace := st1.trace ++ [SSHEvent.sleepMs 200] }
      if alive then reconnectLoop env fuel st2 (bastionRetries + 1)
      else (false, st2)

/-- Embedding of the outer loop of connectForward (for retries starting
at 1): dial the SSH channel; stop on success; after the third failed
dial give up; otherwise probe liveness with the alive@gvproxy global
request, run the reconnect loop when the probe fails, then sleep
200 ms — when the sleep is cut short by cancellation the code sets
retries to 3 before the loop increment, so exactly one more dial is
attempted. The fuel argument (3 at entry) is never exhausted first,
see connectForwardLoop_fuel_succ. -/
def connectForwardLoop (env : TunnelEnv) : Nat → CFState → Nat → Bool × CFState
  | 0, st, _ => (false, st)
  | fuel + 1, st, retries =>
    let ok := env.dialOk st.dials
    let st1 : CFState := { st with dials := st.dials + 1,
                                   trace := st.trace ++ [SSHEvent.dialChannel] }
    if ok then (true, st1)
    else if 2 < retries then (false, st1)
    else
      let p := env.probeOk st1.probes
      let st2 : CFState := { st1 with probes := st1.probes + 1,
                                      trace := st1.trace ++ [SSHEvent.probe aliveRequest] }
      let afterProbe := if p then (true, st2) else reconnectLoop env 3 st2 1
      if afterProbe.1 then
        let st3 := afterProbe.2
        let alive := env.sleepAlive st3.sleeps
        let st4 : CFState := { st3 with sleeps := st3.sleeps + 1,
                                        trace := st3.trace ++ [SSHEvent.sleepMs 200] }
        connectForwardLoop env fuel st4 (if alive then retries + 1 else 4)
      else (false, afterProbe.2)

/-- Embedding of connectForward: run the outer loop from retries = 1.
The boolean is true when an SSH channel was obtained. -/
def connectForward (env : TunnelEnv) : Bool × CFState :=
  connectForwardLoop env 3 cfStart 1

/-- Outcome of one acceptConnection call: whether it returns an error
to its caller, whether the accepted connection was closed, whether the
tunnel error was logged, and whether the two pump tasks were started. -/
structure AcceptOutcome where
  returnsError : Bool
  connClosed : Bool
  loggedError : Bool
  pumpsStarted : Bool
deriving DecidableEq, Repr

/-- Embedding of acceptConnection (the body of AcceptAndTunnel): a
failed Accept returns an error; a connection that cannot half-close is
closed and an error returned; a failed connectForward closes the
connection, logs, and returns nil; otherwise both pumps start. -/
def acceptConnection (env : TunnelEnv) (acceptOk supportsCloseWrite : Bool) :
    AcceptOutcome :=
  if !acceptOk then
    { returnsError := true, connClosed := false, loggedError := false, pumpsStarted := false }
  else if !supportsCloseWrite then
    { returnsError := true, connClosed := true, loggedError := false, pumpsStarted := false }
  else if (connectForward env).1 then
    { returnsError := false, connClosed := false, loggedError := false, pumpsStarted := true }
  else
    { returnsError := false, connClosed := true, loggedError := true, pumpsStarted := false }

/-! ## Initial sshd connection (ssh_forwarder.go, initialConnection) -/

/-- Embedding of backOff: double the delay (5 ms from zero) and cap it
at one second; delays are in milliseconds. -/
def backOff (delay : Nat) : Nat :=
  let d := if delay == 0 then 5 else delay * 2
  if 1000 < d then 1000 else d

/-- Oracle for initialConnection: whether the context is observed as
done at the top of iteration i, and whether the dial attempt of
iteration i succeeds. -/
structure InitEnv where
  ctxDone : Nat → Bool
  connectOk : Nat → Bool

/-- How the initialConnection loop ended. -/
inductive InitOutcome where
  | connected
  | cancelled
  | exhausted
deriving DecidableEq, Repr

/-- Result of initialConnection: number of dial attempts made, the
sleep durations in order (milliseconds), and how the loop ended. -/
structure InitResult where
  attempts : Nat
  sleeps : List Nat
  outcome : InitOutcome
deriving DecidableEq, Repr

/-- Embedding of the body of initialConnection: the for loop runs
iterations i = 0, 1, ... while fuel (60 - i at entry) remains; each
iteration first checks cancellation, then dials, and after a failure
sleeps for the current backoff and doubles it. -/
def initLoop (env : InitEnv) : Nat → Nat → Nat → InitResult
  | 0, _, _ => { attempts := 0, sleeps := [], outcome := InitOutcome.exhausted }
  | fuel + 1, i, backoff =>
    if env.ctxDone i then { attempts := 0, sleeps := [], outcome := InitOutcome.cancelled }
    else if env.connectOk i then { attempts := 1, sleeps := [], outcome := InitOutcome.connected }
    else
      let r := initLoop env fuel (i + 1) (backOff backoff)
      { attempts := r.attempts + 1, sleeps := backoff :: r.sleeps, outcome := r.outcome }

/-- Embedding of initialConnection: at most 60 iterations, starting
backoff 100 ms. -/
def initialConnection (env : InitEnv) : InitResult :=
  initLoop env 60 0 100

/-- Oracle on which every dial, probe, reconnect, and sleep fails. -/
def envAllFail : TunnelEnv :=
  { dialOk := fun _ => false, probeOk := fun _ => false,
    reconnectOk := fun _ => false, sleepAlive := fun _ => false }

/-! ## The backoff sequence of initialConnection -/

/-- The sequence of backoff values used by initialConnection, starting
from b: element k is the delay slept after the k-th failed attempt. -/
def backOffSeq (b : Nat) : Nat → Nat
  | 0 => b
  | k + 1 => backOffSeq (backOff b) k

/-- Oracle where the context stays live and the third dial attempt
succeeds. -/
def envThirdTry : InitEnv :=
  { ctxDone := fun _ => false, connectOk := fun k => k == 2 }

/-! ## SSH client (pkg/sshclient) -/

/-- An authentication method assembled by CreateBastion: a public key
parsed from the identity file, or the password taken from the URL
userinfo. -/
inductive AuthMethod where
  | publicKey (identity : String)
  | password (pw : String)
deriving DecidableEq, Repr

/-- A known_hosts line as seen by the scan in HostKey: none when
ssh.ParseKnownHosts rejects the line (it is logged and skipped),
otherwise the list of hostnames and the key, keys being abstracted by
a numeric identifier. -/
abbrev KnownHostsLine := Option (List String × Nat)

/-- Embedding of the scanner loop in HostKey: return the key of the
first parsed line one of whose hosts equals the plain host or the
hashed host. -/
def hostKeyFind (host hashhost : String) : List KnownHostsLine → Option Nat
  | [] => none
  | none :: rest => hostKeyFind host hashhost rest
  | some (hosts, key) :: rest =>
    if hosts.any (fun h => h == host || h == hashhost) then some key
    else hostKeyFind host hashhost rest

/-- Embedding of HostKey: open the known_hosts file (none models an
open failure, where HostKey logs and returns nil), hash the hostname
with knownhosts.HashHostname (abstracted by the hash parameter), and
scan the lines. -/
def hostKey (hash : String → String) (file : Option (List KnownHostsLine))
    (host : String) : Option Nat :=
  match file with
  | none => none
  | some lines => hostKeyFind host (hash host) lines

/-- The host-key callback CreateBastion installs. -/
inductive HostKeyPolicy where
  | insecureIgnore
  | fixedKey (key : Nat)
deriving DecidableEq, Repr

/-- Errors CreateBastion can return. -/
inductive BastionError where
  | identityParseFailed
  | noAuthMethods
  | connectFailed
deriving DecidableEq, Repr

/-- The Bastion fields CreateBastion assembles (the live client handle
and the connect callback are omitted). -/
structure BastionModel where
  user : String
  authMethods : List AuthMethod
  hostKeyCallback : HostKeyPolicy
  host : String
  port : String
  path : String
deriving DecidableEq, Repr

/-- Embedding of strconv.ParseBool as used on the secure query
parameter: the parse error is discarded, so any unparsable value
behaves as false. -/
def parseBoolGo (s : String) : Bool :=
  s == "1" || s == "t" || s == "T" || s == "TRUE" || s == "true" || s == "True"

/-- The relevant pieces of the parsed destination URL: userinfo,
hostname, port (empty when absent), path, and the raw secure query
parameter. -/
structure SSHURL where
  username : String
  password : Option String
  hostname : String
  port : String
  path : String
  secureParam : String
deriving DecidableEq, Repr

/-- The hostname CreateBastion looks up in known_hosts: bracketed with
the port when the port is not 22 (ssh-keyscan convention). -/
def lookupHost (u : SSHURL) : String :=
  let port := if u.port == "" then "22" else u.port
  if port != "22" then "[" ++ u.hostname ++ "]:" ++ port else u.hostname

/-- The auth methods CreateBastion assembles: the identity key first
when an identity path is given, then the password from the URL
userinfo when present. -/
def bastionAuthMethods (identity : String) (u : SSHURL) : List AuthMethod :=
  (if 0 < identity.length then [AuthMethod.publicKey identity] else [])
    ++ (match u.password with
        | some pw => [AuthMethod.password pw]
        | none => [])

/-- The host-key callback CreateBastion installs: InsecureIgnoreHostKey
unless secure=true and HostKey finds a key for the host, in which case
FixedHostKey pins that key. -/
def bastionCallback (hash : String → String)
    (khFile : Option (List KnownHostsLine)) (u : SSHURL) : HostKeyPolicy :=
  if parseBoolGo u.secureParam then
    match hostKey hash khFile (lookupHost u) with
    | some key => HostKeyPolicy.fixedKey key
    | none => HostKeyPolicy.insecureIgnore
  else HostKeyPolicy.insecureIgnore

/-- The Bastion value CreateBastion builds before connecting. -/
def bastionOf (hash : String → String) (khFile : Option (List KnownHostsLine))
    (u : SSHURL) (identity : String) : BastionModel :=
  { user := u.username, authMethods := bastionAuthMethods identity u,
    hostKeyCallback := bastionCallback hash khFile u,
    host := u.hostname, port := if u.port == "" then "22" else u.port,
    path := u.path }

/-- Embedding of CreateBastion: parse the identity key when given
(failing when ssh.ParsePrivateKey fails), fail when no auth methods
are available, then attempt the first SSH handshake over the initial
connection (bastion.reconnect; handshakeOk stands for ssh.NewClientConn
succeeding). The boolean of the result records whether a handshake was
attempted; the Go function returns the bastion together with the
reconnect error. -/
def createBastion (identityParses handshakeOk : Bool)
    (hash : String → String) (khFile : Option (List KnownHostsLine))
    (u : SSHURL) (identity : String) :
    Except BastionError BastionModel × Bool :=
  if 0 < identity.length ∧ ¬identityParses then
    (Except.error BastionError.identityParseFailed, false)
  else if (bastionAuthMethods identity u).isEmpty then
    (Except.error BastionError.noAuthMethods, false)
  else if handshakeOk then
    (Except.ok (bastionOf hash khFile u identity), true)
  else
    (Except.error BastionError.connectFailed, true)

/-! ## gvproxy main (cmd/gvproxy/main.go) -/

/-- The command-line flags main validates. -/
structure Flags where
  vpnkitSocket : String
  qemuSocket : String
  forwardSocket : String
  forwardDest : String
  forwardUser : String
  forwardIdentity : String
  sshPort : Int
  pidFile : String
deriving DecidableEq, Repr

/-- Results of the effectful probes of the validation code: URL parse
of the qemu socket, os.Stat of its path, its scheme, os.Stat of the
identity file, and creation and write of the PID file. -/
structure StartupEnv where
  qemuURLValid : Bool
  qemuPathExists : Bool
  qemuSchemeUnix : Bool
  identityStatOk : Bool
  pidFileCreateOk : Bool
  pidFileWriteOk : Bool
deriving DecidableEq, Repr

/-- The fatal start-up errors of main, in the order the checks run. -/
inductive StartupError where
  | invalidQemuURL
  | qemuSocketExists
  | qemuVpnkitConflict
  | sshPortOutOfRange
  | identityUnloadable
  | forwardFlagsIncomplete
  | pidFileCreateFailed
  | pidFileWriteFailed
deriving DecidableEq, Repr

/-- The number of the four forward flags that are specified
(non-empty), counted in the order of the source. -/
def forwardFlagCount (f : Flags) : Nat :=
  (if f.forwardDest ≠ "" then 1 else 0)
    + (if f.forwardIdentity ≠ "" then 1 else 0)
    + (if f.forwardUser ≠ "" then 1 else 0)
    + (if f.forwardSocket ≠ "" then 1 else 0)

/-- Embedding of the validation sequence of main: each failed check
calls exitWithError; the first failure wins. The identity file is
stat-checked while counting the forward flags, before the
all-or-nothing check. -/
def validateFlags (env : StartupEnv) (f : Flags) : Option StartupError :=
  if 0 < f.qemuSocket.length ∧ ¬env.qemuURLValid then
    some StartupError.invalidQemuURL
  else if 0 < f.qemuSocket.length ∧ env.qemuPathExists ∧ env.qemuSchemeUnix then
    some StartupError.qemuSocketExists
  else if f.vpnkitSocket ≠ "" ∧ f.qemuSocket ≠ "" then
    some StartupError.qemuVpnkitConflict
  else if f.sshPort < 1024 ∨ 65535 < f.sshPort then
    some StartupError.sshPortOutOfRange
  else if f.forwardIdentity ≠ "" ∧ ¬env.identityStatOk then
    some StartupError.identityUnloadable
  else if 0 < forwardFlagCount f ∧ forwardFlagCount f < 4 then
    some StartupError.forwardFlagsIncomplete
  else if f.pidFile ≠ "" ∧ ¬env.pidFileCreateOk then
    some StartupError.pidFileCreateFailed
  else if f.pidFile ≠ "" ∧ ¬env.pidFileWriteOk then
    some StartupError.pidFileWriteFailed
  else
    none

/-- How a run of the daemon ends. -/
inductive MainOutcome where
  | exitCode (code : Nat)
  | runsForever
deriving DecidableEq, Repr

/-- Embedding of the exit behavior of main: a failed validation calls
exitWithError, which logs and calls os.Exit(1). After a successful
start, main blocks in the error group Wait: when a signal arrives the
signal-watcher task cancels the context and returns the error signal
caught, so Wait returns a non-nil error and main sets exitCode to 1;
a task failure likewise makes Wait non-nil; with no signal and no
task failure the daemon keeps serving. -/
def mainOutcome (env : StartupEnv) (f : Flags)
    (signalReceived taskFailed : Bool) : MainOutcome :=
  match validateFlags env f with
  | some _ => MainOutcome.exitCode 1
  | none =>
    if signalReceived || taskFailed then MainOutcome.exitCode 1
    else MainOutcome.runsForever

/-- The default flags of a plain gvproxy start (no qemu or vpnkit
socket, no forwards, default ssh-port 2222, no PID file). -/
def flagsDefault : Flags :=
  { vpnkitSocket := "", qemuSocket := "", forwardSocket := "",
    forwardDest := "", forwardUser := "", forwardIdentity := "",
    sshPort := 2222, pidFile := "" }

/-- A benign effect environment for the validation probes. -/
def envBenign : StartupEnv :=
  { qemuURLValid := true, qemuPathExists := false, qemuSchemeUnix := true,
    identityStatOk := true, pidFileCreateOk := true, pidFileWriteOk := true }

/-! ## The run function and the single qemu accept (main.go, run) -/

/-- Observable events of the tasks run spawns. -/
inductive RunEvent where
  | qemuAcceptCall
  | qemuAccepted
  | qemuHandled
  | qemuListenerClosed
  | vpnkitAcceptCall
  | vpnkitAccepted
  | httpServe
  | sshForwardServe
deriving DecidableEq, Repr

/-- Flags of run that decide which tasks are spawned. -/
structure RunConfig where
  endpoints : Nat
  debug : Bool
  vpnkitSocket : String
  qemuSocket : String
  forwardSocket : String
deriving DecidableEq, Repr

/-- Effects observed by the run tasks. -/
structure RunEnv where
  qemuAcceptOk : Bool
  vpnkitCtxDone : Nat → Bool
  vpnkitAcceptOk : Nat → Bool

/-- Trace of the goroutine that closes the qemu listener on
cancellation. -/
def qemuCloserTrace : List RunEvent := [RunEvent.qemuListenerClosed]

/-- Trace of the qemu goroutine: it calls Accept exactly once; on
success the connection is handed to vn.AcceptQemu, on failure the
goroutine returns an error. There is no loop. -/
def qemuAcceptTrace (acceptOk : Bool) : List RunEvent :=
  RunEvent.qemuAcceptCall
    :: (if acceptOk then [RunEvent.qemuAccepted, RunEvent.qemuHandled] else [])

/-- Trace of the vpnkit goroutine, observed for fuel iterations: it
loops, checking cancellation before each Accept, logging failed
accepts and continuing, spawning AcceptVpnKit on success. -/
def vpnkitLoopTrace (ctxDone acceptOk : Nat → Bool) : Nat → Nat → List RunEvent
  | 0, _ => []
  | fuel + 1, i =>
    if ctxDone i then []
    else if acceptOk i then
      RunEvent.vpnkitAcceptCall :: RunEvent.vpnkitAccepted
        :: vpnkitLoopTrace ctxDone acceptOk fuel (i + 1)
    else
      RunEvent.vpnkitAcceptCall :: vpnkitLoopTrace ctxDone acceptOk fuel (i + 1)

/-- The traces of all tasks run spawns, one list per g.Go call: the
serve tasks of the tap endpoints, the debug logger, the vpnkit accept
loop, the qemu closer and single-accept tasks, and the SSH forward
task. -/
def runTaskTraces (cfg : RunConfig) (env : RunEnv) (fuel : Nat) :
    List (List RunEvent) :=
  List.replicate cfg.endpoints [RunEvent.httpServe]
    ++ (if cfg.debug then [([] : List RunEvent)] else [])
    ++ (if cfg.vpnkitSocket ≠ "" then
          [vpnkitLoopTrace env.vpnkitCtxDone env.vpnkitAcceptOk fuel 0] else [])
    ++ (if cfg.qemuSocket ≠ "" then
          [qemuCloserTrace, qemuAcceptTrace env.qemuAcceptOk] else [])
    ++ (if cfg.forwardSocket ≠ "" then [[RunEvent.sshForwardServe]] else [])

/-- Total occurrences of one event across all task traces. -/
def countEvent (e : RunEvent) (ts : List (List RunEvent)) : Nat :=
  (ts.map (fun t => t.count e)).sum

def urlSecureDest : SSHURL :=
  { username := "core", password := some "pass", hostname := "192.168.127.2",
    port := "", path := "/run/user/1000/podman.sock", secureParam := "true" }

def khEmpty : Option (List KnownHostsLine) := some []

def khWithHost : Option (List KnownHostsLine) :=
  some [some (["192.168.127.2"], 7)]

def urlNoAuth : SSHURL :=
  { username := "core", password := none, hostname := "192.168.127.2",
    port := "22", path := "/run/user/1000/podman.sock", secureParam := "" }

/-- A run configuration with the qemu socket set. -/
def cfgQemu : RunConfig :=
  { endpoints := 1, debug := false, vpnkitSocket := "",
    qemuSocket := "/tmp/qemu.sock", forwardSocket := "" }

/-- Effects where the single qemu accept succeeds. -/
def envQemu : RunEnv :=
  { qemuAcceptOk := true, vpnkitCtxDone := fun _ => false,
    vpnkitAcceptOk := fun _ => false }

/-! ## Theorems: UDP forwarder and the pump (claims C5, C6, C7) -/

theorem copyChunks_of_all_ok (writeOk : Nat → Bool)
    (h : ∀ i, writeOk i = true) :
    ∀ (k : Nat) (chunks : List (List Nat)), copyChunks writeOk k chunks = chunks := by
  intro k chunks
  induction chunks generalizing k with
  | nil => rfl
  | cons c rest ih =>
    simp only [copyChunks, h k, if_true]
    rw [ih]

theorem deliveredBytes_writes (l : List (List Nat)) :
    deliveredBytes (l.map PumpEvent.write
        ++ [PumpEvent.closeWrite, PumpEvent.closeSource]) = l.flatten := by
  induction l with
  | nil => rfl
  | cons c rest ih =>
    simp only [List.map_cons, List.cons_append, deliveredBytes, List.flatten,
      List.append_eq]
    rw [ih]

/-- C5: for every UDP flow handled by the forwarder, when the handler
dials the host, the dialed address is the NAT-mapped value when the
stack-observed destination is a NAT key and the guest's chosen
destination otherwise, and the dialed port is the flow's original
destination port. -/
theorem c5_udp_nat_rewrite (nat : IPv4 → Option IPv4) (endpointOk : Bool)
    (id : FlowID) (a p : Nat)
    (h : udpHandler nat endpointOk id = UDPOutcome.proxied a p) :
    (∀ r, nat id.localAddress = some r → a = r)
      ∧ (nat id.localAddress = none → a = id.localAddress)
      ∧ p = id.localPort := by
  unfold udpHandler at h
  by_cases hl : linkLocalContains id.localAddress
  · simp only [hl, if_true] at h
    exact absurd h (by simp)
  · simp only [hl, if_false, Bool.false_eq_true] at h
    cases hn : nat id.localAddress with
    | none =>
      rw [hn] at h
      cases he : endpointOk <;> rw [he] at h <;> simp_all
    | some r =>
      rw [hn] at h
      cases he : endpointOk <;> rw [he] at h <;> simp_all

/-- Witness for c5_udp_nat_rewrite: the default NAT entry 192.168.127.254
maps a guest flow to loopback, port preserved. -/
theorem c5_udp_nat_rewrite_witness :
    (natDefault flowToHost.localAddress = none →
        mkIPv4 127 0 0 1 = flowToHost.localAddress)
      ∧ 9000 = flowToHost.localPort :=
  (c5_udp_nat_rewrite natDefault true flowToHost (mkIPv4 127 0 0 1) 9000
    (by decide)).2

/-- C6: for every UDP flow whose stack-observed destination address lies
in 169.254.0.0/16, the handler returns before creating an endpoint and
before dialing the host. -/
theorem c6_udp_link_local (nat : IPv4 → Option IPv4) (endpointOk : Bool)
    (id : FlowID) (h : linkLocalContains id.localAddress = true) :
    udpHandler nat endpointOk id = UDPOutcome.droppedLinkLocal := by
  unfold udpHandler
  simp [h]

/-- Witness for c6_udp_link_local at the concrete destination 169.254.1.1. -/
theorem c6_udp_link_local_witness :
    linkLocalContains flowLinkLocal.localAddress = true
      ∧ udpHandler natDefault true flowLinkLocal = UDPOutcome.droppedLinkLocal :=
  ⟨by decide, c6_udp_link_local natDefault true flowLinkLocal (by decide)⟩

/-- C7: for each direction of a tunneled connection, the pump copies the
source's bytes to the destination in order until the source ends (EOF or
read error), and only afterwards half-closes the destination (CloseWrite)
and closes the source, so the trace is exactly the in-order writes
followed by CloseWrite and the source close. -/
theorem c7_forward_pump (writeOk : Nat → Bool) (src : PumpSource)
    (h : ∀ i, writeOk i = true) :
    forwardTrace writeOk src
        = src.chunks.map PumpEvent.write
          ++ [PumpEvent.closeWrite, PumpEvent.closeSource]
      ∧ deliveredBytes (forwardTrace writeOk src) = src.chunks.flatten := by
  have hc : copyChunks writeOk 0 src.chunks = src.chunks :=
    copyChunks_of_all_ok writeOk h 0 src.chunks
  constructor
  · unfold forwardTrace
    rw [hc]
  · unfold forwardTrace
    rw [hc]
    exact deliveredBytes_writes src.chunks

/-- Witness for c7_forward_pump on a two-chunk source. -/
theorem c7_forward_pump_witness :
    forwardTrace (fun _ => true) (PumpSource.mk [[1, 2], [3]] false)
        = [PumpEvent.write [1, 2], PumpEvent.write [3],
            PumpEvent.closeWrite, PumpEvent.closeSource]
      ∧ deliveredBytes (forwardTrace (fun _ => true)
          (PumpSource.mk [[1, 2], [3]] false)) = [1, 2, 3] :=
  c7_forward_pump (fun _ => true) (PumpSource.mk [[1, 2], [3]] false)
    (fun _ => rfl)

/-! ## Theorems: the connectForward loops and initialConnection (claims C3, C4) -/

theorem reconnectLoop_fuel_succ (env : TunnelEnv) :
    ∀ fuel st b, 1 ≤ fuel → 4 - b ≤ fuel →
      reconnectLoop env fuel st b = reconnectLoop env (fuel + 1) st b := by
  intro fuel
  induction fuel with
  | zero => intro st b h1 _; omega
  | succ n ih =>
    intro st b _ hb
    simp only [reconnectLoop]
    split
    · rfl
    · split
      · rfl
      · split
        · apply ih <;> omega
        · rfl

theorem connectForwardLoop_fuel_succ (env : TunnelEnv) :
    ∀ fuel st r, 1 ≤ fuel → 4 - r ≤ fuel →
      connectForwardLoop env fuel st r = connectForwardLoop env (fuel + 1) st r := by
  intro fuel
  induction fuel with
  | zero => intro st r h1 _; omega
  | succ n ih =>
    intro st r _ hr
    rw [connectForwardLoop]
    conv_rhs => rw [connectForwardLoop]
    split
    · rfl
    · split
      · rfl
      · dsimp only
        split
        · apply ih
          · omega
          · split <;> omega
        · split
          · apply ih
            · omega
            · split <;> omega
          · rfl

/-- The entry fuel 3 of connectForward is not what bounds the loop: any
larger fuel yields the same result, because retries strictly increases
and the guard stops the loop first. -/
theorem connectForward_fuel_irrelevant (env : TunnelEnv) (k : Nat) :
    connectForwardLoop env (3 + k) cfStart 1 = connectForward env := by
  induction k with
  | zero => rfl
  | succ n ih =>
    show connectForwardLoop env (3 + n + 1) cfStart 1 = connectForward env
    rw [← connectForwardLoop_fuel_succ env (3 + n) cfStart 1 (by omega) (by omega)]
    exact ih

theorem reconnectLoop_dials (env : TunnelEnv) :
    ∀ fuel st b, ((reconnectLoop env fuel st b).2).dials = st.dials := by
  intro fuel
  induction fuel with
  | zero => intro st b; rfl
  | succ n ih =>
    intro st b
    simp only [reconnectLoop]
    split
    · rfl
    · split
      · rfl
      · split
        · rw [ih]
        · rfl

theorem reconnectLoop_probes (env : TunnelEnv) :
    ∀ fuel st b, ((reconnectLoop env fuel st b).2).probes = st.probes := by
  intro fuel
  induction fuel with
  | zero => intro st b; rfl
  | succ n ih =>
    intro st b
    simp only [reconnectLoop]
    split
    · rfl
    · split
      · rfl
      · split
        · rw [ih]
        · rfl

theorem reconnectLoop_recons_le (env : TunnelEnv) :
    ∀ fuel st b, b ≤ 3 →
      ((reconnectLoop env fuel st b).2).recons ≤ st.recons + (4 - b) := by
  intro fuel
  induction fuel with
  | zero => intro st b _; simp [reconnectLoop]
  | succ n ih =>
    intro st b hb
    simp only [reconnectLoop]
    split
    · show st.recons + 1 ≤ st.recons + (4 - b)
      omega
    · split
      · show st.recons + 1 ≤ st.recons + (4 - b)
        omega
      · split
        · refine le_trans (ih _ (b + 1) (by omega)) ?_
          show st.recons + 1 + (4 - (b + 1)) ≤ st.recons + (4 - b)
          omega
        · show st.recons + 1 ≤ st.recons + (4 - b)
          omega

theorem reconnectLoop_recons_cancel (env : TunnelEnv)
    (hs : ∀ k, env.sleepAlive k = false) :
    ∀ fuel st b, ((reconnectLoop env fuel st b).2).recons ≤ st.recons + 1 := by
  intro fuel
  induction fuel with
  | zero => intro st b; simp [reconnectLoop]
  | succ n ih =>
    intro st b
    simp only [reconnectLoop]
    split
    · show st.recons + 1 ≤ st.recons + 1
      omega
    · split
      · show st.recons + 1 ≤ st.recons + 1
        omega
      · rw [hs]
        simp only [Bool.false_eq_true, if_false]
        show st.recons + 1 ≤ st.recons + 1
        omega

theorem reconnectLoop_trace_sleeps (env : TunnelEnv) :
    ∀ fuel st b, (∀ d, SSHEvent.sleepMs d ∈ st.trace → d = 200) →
      ∀ d, SSHEvent.sleepMs d ∈ ((reconnectLoop env fuel st b).2).trace → d = 200 := by
  intro fuel
  induction fuel with
  | zero => intro st b hst; exact hst
  | succ n ih =>
    intro st b hst
    simp only [reconnectLoop]
    split
    · intro d hd
      simp only [List.mem_append, List.mem_singleton] at hd
      rcases hd with hd | hd
      · exact hst d hd
      · exact absurd hd (by simp)
    · split
      · intro d hd
        simp only [List.mem_append, List.mem_singleton] at hd
        rcases hd with hd | hd
        · exact hst d hd
        · exact absurd hd (by simp)
      · split
        · apply ih
          intro d hd
          simp only [List.mem_append, List.mem_singleton] at hd
          rcases hd with (hd | hd) | hd
          · exact hst d hd
          · exact absurd hd (by simp)
          · injection hd with h
        · intro d hd
          simp only [List.mem_append, List.mem_singleton] at hd
          rcases hd with (hd | hd) | hd
          · exact hst d hd
          · exact absurd hd (by simp)
          · injection hd with h

theorem reconnectLoop_trace_probes (env : TunnelEnv) :
    ∀ fuel st b, (∀ s, SSHEvent.probe s ∈ st.trace → s = aliveRequest) →
      ∀ s, SSHEvent.probe s ∈ ((reconnectLoop env fuel st b).2).trace → s = aliveRequest := by
  intro fuel
  induction fuel with
  | zero => intro st b hst; exact hst
  | succ n ih =>
    intro st b hst
    simp only [reconnectLoop]
    split
    · intro s hs
      simp only [List.mem_append, List.mem_singleton] at hs
      rcases hs with hs | hs
      · exact hst s hs
      · exact absurd hs (by simp)
    · split
      · intro s hs
        simp only [List.mem_append, List.mem_singleton] at hs
        rcases hs with hs | hs
        · exact hst s hs
        · exact absurd hs (by simp)
      · split
        · apply ih
          intro s hs
          simp only [List.mem_append, List.mem_singleton] at hs
          rcases hs with (hs | hs) | hs
          · exact hst s hs
          · exact absurd hs (by simp)
          · exact absurd hs (by simp)
        · intro s hs
          simp only [List.mem_append, List.mem_singleton] at hs
          rcases hs with (hs | hs) | hs
          · exact hst s hs
          · exact absurd hs (by simp)
          · exact absurd hs (by simp)

theorem connectForwardLoop_dials_le (env : TunnelEnv) :
    ∀ fuel st r, 1 ≤ r →
      ((connectForwardLoop env fuel st r).2).dials ≤ st.dials + (4 - min r 3) := by
  intro fuel
  induction fuel with
  | zero =>
    intro st r hr
    show st.dials ≤ st.dials + (4 - min r 3)
    omega
  | succ n ih =>
    intro st r hr
    rw [connectForwardLoop]
    split
    · show st.dials + 1 ≤ st.dials + (4 - min r 3)
      omega
    · split
      · show st.dials + 1 ≤ st.dials + (4 - min r 3)
        omega
      · dsimp only
        split
        · -- probe alive
          refine le_trans (ih _ _ (by split <;> omega)) ?_
          split
          · show st.dials + 1 + (4 - min (r + 1) 3) ≤ st.dials + (4 - min r 3)
            omega
          · show st.dials + 1 + (4 - min 4 3) ≤ st.dials + (4 - min r 3)
            omega
        · split
          · -- reconnect succeeded, one more round
            refine le_trans (ih _ _ (by split <;> omega)) ?_
            dsimp only
            rw [reconnectLoop_dials]
            split
            · show st.dials + 1 + (4 - min (r + 1) 3) ≤ st.dials + (4 - min r 3)
              omega
            · show st.dials + 1 + (4 - min 4 3) ≤ st.dials + (4 - min r 3)
              omega
          · -- reconnect exhausted
            dsimp only
            rw [reconnectLoop_dials]
            show st.dials + 1 ≤ st.dials + (4 - min r 3)
            omega

theorem connectForwardLoop_probes_mono (env : TunnelEnv) :
    ∀ fuel st r, st.probes ≤ ((connectForwardLoop env fuel st r).2).probes := by
  intro fuel
  induction fuel with
  | zero => intro st r; exact le_refl _
  | succ n ih =>
    intro st r
    rw [connectForwardLoop]
    split
    · exact le_refl _
    · split
      · exact le_refl _
      · dsimp only
        split
        · refine le_trans ?_ (ih _ _)
          show st.probes ≤ st.probes + 1
          omega
        · split
          · refine le_trans ?_ (ih _ _)
            dsimp only
            rw [reconnectLoop_probes]
            show st.probes ≤ st.probes + 1
            omega
          · dsimp only
            rw [reconnectLoop_probes]
            show st.probes ≤ st.probes + 1
            omega

theorem connectForwardLoop_probes_one (env : TunnelEnv) :
    ∀ fuel st r, 1 ≤ fuel → r ≤ 2 → env.dialOk st.dials = false →
      st.probes + 1 ≤ ((connectForwardLoop env fuel st r).2).probes := by
  intro fuel
  cases fuel with
  | zero => intro st r h1 _ _; omega
  | succ n =>
    intro st r _ hr hd
    rw [connectForwardLoop]
    rw [hd]
    simp only [Bool.false_eq_true, if_false]
    have hguard : ¬(2 < r) := by omega
    rw [if_neg hguard]
    split
    · try dsimp only
      refine le_trans ?_ (connectForwardLoop_probes_mono env _ _ _)
      show st.probes + 1 ≤ st.probes + 1
      omega
    · try dsimp only
      split
      · refine le_trans ?_ (connectForwardLoop_probes_mono env _ _ _)
        try dsimp only
        rw [reconnectLoop_probes]
      · try dsimp only
        rw [reconnectLoop_probes]

theorem connectForwardLoop_recons_of_probes_ok (env : TunnelEnv)
    (hp : ∀ k, env.probeOk k = true) :
    ∀ fuel st r, ((connectForwardLoop env fuel st r).2).recons = st.recons := by
  intro fuel
  induction fuel with
  | zero => intro st r; rfl
  | succ n ih =>
    intro st r
    rw [connectForwardLoop]
    split
    · rfl
    · split
      · rfl
      · dsimp only
        rw [hp]
        simp only [if_true]
        rw [ih]

theorem connectForwardLoop_cancel_high (env : TunnelEnv) :
    ∀ fuel st r, 2 < r →
      ((connectForwardLoop env fuel st r).2).dials ≤ st.dials + 1
        ∧ ((connectForwardLoop env fuel st r).2).recons = st.recons := by
  intro fuel st r hr
  cases fuel with
  | zero =>
    refine ⟨?_, rfl⟩
    show st.dials ≤ st.dials + 1
    omega
  | succ n =>
    rw [connectForwardLoop]
    split
    · refine ⟨?_, rfl⟩
      show st.dials + 1 ≤ st.dials + 1
      omega
    · refine ⟨?_, rfl⟩
      show st.dials + 1 ≤ st.dials + 1
      omega

theorem connectForwardLoop_cancel (env : TunnelEnv)
    (hs : ∀ k, env.sleepAlive k = false) :
    ∀ fuel st r,
      ((connectForwardLoop env fuel st r).2).dials ≤ st.dials + 2
        ∧ ((connectForwardLoop env fuel st r).2).recons ≤ st.recons + 1 := by
  intro fuel
  induction fuel with
  | zero =>
    intro st r
    constructor
    · show st.dials ≤ st.dials + 2
      omega
    · show st.recons ≤ st.recons + 1
      omega
  | succ n ih =>
    intro st r
    rw [connectForwardLoop]
    split
    · constructor
      · show st.dials + 1 ≤ st.dials + 2
        omega
      · show st.recons ≤ st.recons + 1
        omega
    · split
      · constructor
        · show st.dials + 1 ≤ st.dials + 2
          omega
        · show st.recons ≤ st.recons + 1
          omega
      · try dsimp only
        split
        · -- probe healthy, sleep is cancelled so retries jumps to 4
          rw [hs]
          simp only [Bool.false_eq_true, if_false, if_true]
          constructor
          · refine le_trans (connectForwardLoop_cancel_high env n _ 4 (by omega)).1 ?_
            show st.dials + 1 + 1 ≤ st.dials + 2
            omega
          · rw [(connectForwardLoop_cancel_high env n _ 4 (by omega)).2]
            show st.recons ≤ st.recons + 1
            omega
        · try dsimp only
          split
          · -- reconnect succeeded, sleep cancelled, one final dial
            rw [hs]
            simp only [Bool.false_eq_true, if_false]
            constructor
            · refine le_trans (connectForwardLoop_cancel_high env n _ 4 (by omega)).1 ?_
              try dsimp only
              rw [reconnectLoop_dials]
            · rw [(connectForwardLoop_cancel_high env n _ 4 (by omega)).2]
              try dsimp only
              refine le_trans (reconnectLoop_recons_cancel env hs 3 _ 1) ?_
              show st.recons + 1 ≤ st.recons + 1
              omega
          · -- reconnect exhausted, connectForward gives up
            constructor
            · try dsimp only
              rw [reconnectLoop_dials]
              show st.dials + 1 ≤ st.dials + 2
              omega
            · try dsimp only
              refine le_trans (reconnectLoop_recons_cancel env hs 3 _ 1) ?_
              show st.recons + 1 ≤ st.recons + 1
              omega

theorem connectForwardLoop_trace_sleeps (env : TunnelEnv) :
    ∀ fuel st r, (∀ d, SSHEvent.sleepMs d ∈ st.trace → d = 200) →
      ∀ d, SSHEvent.sleepMs d ∈ ((connectForwardLoop env fuel st r).2).trace → d = 200 := by
  intro fuel
  induction fuel with
  | zero => intro st r hst; exact hst
  | succ n ih =>
    intro st r hst
    rw [connectForwardLoop]
    split
    · intro d hd
      simp only [List.mem_append, List.mem_singleton] at hd
      rcases hd with hd | hd
      · exact hst d hd
      · exact absurd hd (by simp)
    · split
      · intro d hd
        simp only [List.mem_append, List.mem_singleton] at hd
        rcases hd with hd | hd
        · exact hst d hd
        · exact absurd hd (by simp)
      · try dsimp only
        split
        · apply ih
          intro d hd
          try dsimp only at hd
          simp only [List.mem_append, List.mem_singleton] at hd
          rcases hd with ((hd | hd) | hd) | hd
          · exact hst d hd
          · exact absurd hd (by simp)
          · exact absurd hd (by simp)
          · injection hd with h
        · split
          · apply ih
            intro d hd
            try dsimp only at hd
            simp only [List.mem_append, List.mem_singleton] at hd
            rcases hd with hd | hd
            · refine reconnectLoop_trace_sleeps env 3 _ 1 ?_ d hd
              intro e he
              try dsimp only at he
              simp only [List.mem_append, List.mem_singleton] at he
              rcases he with (he | he) | he
              · exact hst e he
              · exact absurd he (by simp)
              · exact absurd he (by simp)
            · injection hd with h
          · intro d hd
            refine reconnectLoop_trace_sleeps env 3 _ 1 ?_ d hd
            intro e he
            try dsimp only at he
            simp only [List.mem_append, List.mem_singleton] at he
            rcases he with (he | he) | he
            · exact hst e he
            · exact absurd he (by simp)
            · exact absurd he (by simp)

theorem connectForwardLoop_trace_probes (env : TunnelEnv) :
    ∀ fuel st r, (∀ s, SSHEvent.probe s ∈ st.trace → s = aliveRequest) →
      ∀ s, SSHEvent.probe s ∈ ((connectForwardLoop env fuel st r).2).trace → s = aliveRequest := by
  intro fuel
  induction fuel with
  | zero => intro st r hst; exact hst
  | succ n ih =>
    intro st r hst
    rw [connectForwardLoop]
    split
    · intro s hsm
      simp only [List.mem_append, List.mem_singleton] at hsm
      rcases hsm with hsm | hsm
      · exact hst s hsm
      · exact absurd hsm (by simp)
    · split
      · intro s hsm
        simp only [List.mem_append, List.mem_singleton] at hsm
        rcases hsm with hsm | hsm
        · exact hst s hsm
        · exact absurd hsm (by simp)
      · try dsimp only
        split
        · apply ih
          intro s hsm
          try dsimp only at hsm
          simp only [List.mem_append, List.mem_singleton] at hsm
          rcases hsm with ((hsm | hsm) | hsm) | hsm
          · exact hst s hsm
          · exact absurd hsm (by simp)
          · injection hsm with h
          · exact absurd hsm (by simp)
        · split
          · apply ih
            intro s hsm
            try dsimp only at hsm
            simp only [List.mem_append, List.mem_singleton] at hsm
            rcases hsm with hsm | hsm
            · refine reconnectLoop_trace_probes env 3 _ 1 ?_ s hsm
              intro e he
              try dsimp only at he
              simp only [List.mem_append, List.mem_singleton] at he
              rcases he with (he | he) | he
              · exact hst e he
              · exact absurd he (by simp)
              · injection he with h
            · exact absurd hsm (by simp)
          · intro s hsm
            refine reconnectLoop_trace_probes env 3 _ 1 ?_ s hsm
            intro e he
            try dsimp only at he
            simp only [List.mem_append, List.mem_singleton] at he
            rcases he with (he | he) | he
            · exact hst e he
            · exact absurd he (by simp)
            · injection he with h

/-- C3: for every accepted connection, the connectForward retry logic
dials the SSH channel at most 3 times; a failed first dial is followed
by a liveness probe; every probe is the alive@gvproxy global request;
each probe failure triggers at most 3 reconnect attempts; every sleep
between attempts is 200 ms; reconnects happen only when a probe fails;
a cancelled context aborts promptly (at most one reconnect, at most
two dials); and when the channel still cannot be opened,
acceptConnection closes the accepted connection, logs the error, and
returns without a fatal error. -/
theorem c3_channel_retry (env : TunnelEnv) :
    ((connectForward env).2).dials ≤ 3
      ∧ (env.dialOk 0 = false → 1 ≤ ((connectForward env).2).probes)
      ∧ (∀ s, SSHEvent.probe s ∈ ((connectForward env).2).trace → s = aliveRequest)
      ∧ (∀ fuel st, ((reconnectLoop env fuel st 1).2).recons ≤ st.recons + 3)
      ∧ (∀ d, SSHEvent.sleepMs d ∈ ((connectForward env).2).trace → d = 200)
      ∧ ((∀ k, env.probeOk k = true) → ((connectForward env).2).recons = 0)
      ∧ ((∀ k, env.sleepAlive k = false) →
            ((connectForward env).2).recons ≤ 1 ∧ ((connectForward env).2).dials ≤ 2)
      ∧ ((connectForward env).1 = false →
            acceptConnection env true true =
              { returnsError := false, connClosed := true, loggedError := true,
                pumpsStarted := false }) := by
  refine ⟨?_, ?_, ?_, ?_, ?_, ?_, ?_, ?_⟩
  · show ((connectForwardLoop env 3 cfStart 1).2).dials ≤ 3
    have h := connectForwardLoop_dials_le env 3 cfStart 1 (by omega)
    have h0 : cfStart.dials = 0 := rfl
    omega
  · intro hd
    show 1 ≤ ((connectForwardLoop env 3 cfStart 1).2).probes
    exact connectForwardLoop_probes_one env 3 cfStart 1 (by omega) (by omega) hd
  · exact connectForwardLoop_trace_probes env 3 cfStart 1
      (by intro s h; simp [cfStart] at h)
  · intro fuel st
    exact reconnectLoop_recons_le env fuel st 1 (by omega)
  · exact connectForwardLoop_trace_sleeps env 3 cfStart 1
      (by intro d h; simp [cfStart] at h)
  · intro hp
    exact connectForwardLoop_recons_of_probes_ok env hp 3 cfStart 1
  · intro hs
    have h := connectForwardLoop_cancel env hs 3 cfStart 1
    exact ⟨h.2, h.1⟩
  · intro h
    simp [acceptConnection, h]

theorem c3_channel_retry_witness :
    (connectForward envAllFail).1 = false
      ∧ envAllFail.dialOk 0 = false
      ∧ acceptConnection envAllFail true true =
          { returnsError := false, connClosed := true, loggedError := true,
            pumpsStarted := false } :=
  ⟨by decide, rfl, (c3_channel_retry envAllFail).2.2.2.2.2.2.2 (by decide)⟩

theorem backOffSeq_succ_out : ∀ (k b : Nat),
    backOffSeq b (k + 1) = backOff (backOffSeq b k) := by
  intro k
  induction k with
  | zero => intro b; rfl
  | succ n ih =>
    intro b
    show backOffSeq (backOff b) (n + 1) = backOff (backOffSeq b (n + 1))
    rw [ih (backOff b)]
    rfl

theorem backOff_eq_min (x : Nat) (hx : 0 < x) : backOff x = min (2 * x) 1000 := by
  unfold backOff
  have hbeq : (x == 0) = false := by
    simp only [beq_eq_false_iff_ne, ne_eq]
    omega
  simp only [hbeq, Bool.false_eq_true, if_false]
  split <;> omega

theorem backOffSeq_100 : ∀ k, backOffSeq 100 k = min (100 * 2 ^ k) 1000 := by
  intro k
  induction k with
  | zero => decide
  | succ n ih =>
    rw [backOffSeq_succ_out, ih]
    have hpos : 0 < 100 * 2 ^ n := by positivity
    rw [backOff_eq_min _ (by omega)]
    have ha : 100 * 2 ^ (n + 1) = 2 * (100 * 2 ^ n) := by ring
    rw [ha]
    omega

theorem initLoop_attempts_le (env : InitEnv) :
    ∀ fuel i b, (initLoop env fuel i b).attempts ≤ fuel := by
  intro fuel
  induction fuel with
  | zero => intro i b; exact le_refl _
  | succ n ih =>
    intro i b
    simp only [initLoop]
    split
    · show 0 ≤ n + 1
      omega
    · split
      · show 1 ≤ n + 1
        omega
      · show (initLoop env n (i + 1) (backOff b)).attempts + 1 ≤ n + 1
        have := ih (i + 1) (backOff b)
        omega

theorem initLoop_sleeps_get (env : InitEnv) :
    ∀ fuel i b k v, (initLoop env fuel i b).sleeps[k]? = some v →
      v = backOffSeq b k := by
  intro fuel
  induction fuel with
  | zero =>
    intro i b k v h
    simp [initLoop] at h
  | succ n ih =>
    intro i b k v h
    by_cases hd : env.ctxDone i = true
    · simp [initLoop, hd] at h
    · rw [Bool.not_eq_true] at hd
      by_cases hc : env.connectOk i = true
      · simp [initLoop, hd, hc] at h
      · rw [Bool.not_eq_true] at hc
        simp only [initLoop, hd, hc, Bool.false_eq_true, if_false] at h
        cases k with
        | zero =>
          simp only [List.getElem?_cons_zero, Option.some_inj] at h
          simp [backOffSeq, h]
        | succ m =>
          simp only [List.getElem?_cons_succ] at h
          exact ih (i + 1) (backOff b) m v h

theorem initLoop_connected (env : InitEnv) :
    ∀ fuel i b j, i ≤ j → j < i + fuel →
      (∀ k, i ≤ k → k < j → env.ctxDone k = false ∧ env.connectOk k = false) →
      env.ctxDone j = false → env.connectOk j = true →
        (initLoop env fuel i b).outcome = InitOutcome.connected
          ∧ (initLoop env fuel i b).attempts = j + 1 - i := by
  intro fuel
  induction fuel with
  | zero => intro i b j hij hj _ _ _; omega
  | succ n ih =>
    intro i b j hij hj hpre hdone hconn
    by_cases hje : i = j
    · subst hje
      have hres : initLoop env (n + 1) i b =
          { attempts := 1, sleeps := [], outcome := InitOutcome.connected } := by
        simp only [initLoop, hdone, Bool.false_eq_true, if_false, hconn, if_true]
      rw [hres]
      exact ⟨rfl, by show (1 : Nat) = i + 1 - i; omega⟩
    · have hii : i < j := by omega
      have hi := hpre i (le_refl i) hii
      simp only [initLoop, hi.1, hi.2, Bool.false_eq_true, if_false]
      have hrec := ih (i + 1) (backOff b) j (by omega) (by omega)
        (fun k hk1 hk2 => hpre k (by omega) hk2) hdone hconn
      refine ⟨hrec.1, ?_⟩
      show (initLoop env n (i + 1) (backOff b)).attempts + 1 = j + 1 - i
      have h2 := hrec.2
      omega

theorem initLoop_cancelled (env : InitEnv) :
    ∀ fuel i b j, i ≤ j → j < i + fuel →
      (∀ k, i ≤ k → k < j → env.ctxDone k = false ∧ env.connectOk k = false) →
      env.ctxDone j = true →
        (initLoop env fuel i b).outcome = InitOutcome.cancelled
          ∧ (initLoop env fuel i b).attempts = j - i := by
  intro fuel
  induction fuel with
  | zero => intro i b j hij hj _ _; omega
  | succ n ih =>
    intro i b j hij hj hpre hdone
    by_cases hje : i = j
    · subst hje
      have hres : initLoop env (n + 1) i b =
          { attempts := 0, sleeps := [], outcome := InitOutcome.cancelled } := by
        simp only [initLoop, hdone, if_true]
      rw [hres]
      exact ⟨rfl, by show (0 : Nat) = i - i; omega⟩
    · have hii : i < j := by omega
      have hi := hpre i (le_refl i) hii
      simp only [initLoop, hi.1, hi.2, Bool.false_eq_true, if_false]
      have hrec := ih (i + 1) (backOff b) j (by omega) (by omega)
        (fun k hk1 hk2 => hpre k (by omega) hk2) hdone
      refine ⟨hrec.1, ?_⟩
      show (initLoop env n (i + 1) (backOff b)).attempts + 1 = j - i
      have h2 := hrec.2
      omega

/-- C4: initialConnection makes at most 60 dial attempts; the k-th
sleep between failed attempts lasts min (100 * 2 ^ k) 1000
milliseconds, so the backoff starts at 100 ms, doubles after each
attempt, and never exceeds one second; the loop stops early at the
first successful attempt and stops at the first iteration that
observes a cancelled context. -/
theorem c4_initial_connection (env : InitEnv) :
    (initialConnection env).attempts ≤ 60
      ∧ (∀ k v, (initialConnection env).sleeps[k]? = some v →
            v = min (100 * 2 ^ k) 1000)
      ∧ (∀ j, j < 60 →
            (∀ k, k < j → env.ctxDone k = false ∧ env.connectOk k = false) →
            env.ctxDone j = false → env.connectOk j = true →
              (initialConnection env).outcome = InitOutcome.connected
                ∧ (initialConnection env).attempts = j + 1)
      ∧ (∀ j, j < 60 →
            (∀ k, k < j → env.ctxDone k = false ∧ env.connectOk k = false) →
            env.ctxDone j = true →
              (initialConnection env).outcome = InitOutcome.cancelled
                ∧ (initialConnection env).attempts = j) := by
  refine ⟨?_, ?_, ?_, ?_⟩
  · exact initLoop_attempts_le env 60 0 100
  · intro k v h
    rw [initLoop_sleeps_get env 60 0 100 k v h]
    exact backOffSeq_100 k
  · intro j hj hpre hdone hconn
    exact initLoop_connected env 60 0 100 j (by omega) (by omega)
      (fun k _ hk2 => hpre k hk2) hdone hconn
  · intro j hj hpre hdone
    exact initLoop_cancelled env 60 0 100 j (by omega) (by omega)
      (fun k _ hk2 => hpre k hk2) hdone

/-- Witness for c4_initial_connection: with the third attempt
succeeding, the loop connects after exactly 3 attempts, and the two
sleeps last 100 ms and 200 ms. -/
theorem c4_initial_connection_witness :
    (2 < 60
        ∧ (initialConnection envThirdTry).outcome = InitOutcome.connected
        ∧ (initialConnection envThirdTry).attempts = 2 + 1)
      ∧ 100 = min (100 * 2 ^ 0) 1000 :=
  ⟨⟨by omega,
    (c4_initial_connection envThirdTry).2.2.1 2 (by decide) (by decide)
      (by decide) (by decide)⟩,
    (c4_initial_connection envThirdTry).2.1 0 100 (by decide)⟩

/-! ## Theorems about CreateBastion (claims C2 and C10) -/

theorem hostKeyFind_eq_none (host hh : String) :
    ∀ lines, hostKeyFind host hh lines = none ↔
      ∀ hosts key, some (hosts, key) ∈ lines →
        ∀ x ∈ hosts, x ≠ host ∧ x ≠ hh := by
  intro lines
  induction lines with
  | nil => simp [hostKeyFind]
  | cons e rest ih =>
    cases e with
    | none =>
      rw [hostKeyFind, ih]
      constructor
      · intro h hosts key hmem x hx
        rcases List.mem_cons.mp hmem with hmem | hmem
        · exact absurd hmem (by simp)
        · exact h hosts key hmem x hx
      · intro h hosts key hmem x hx
        exact h hosts key (List.mem_cons_of_mem _ hmem) x hx
    | some pr =>
      obtain ⟨hosts, key⟩ := pr
      by_cases hm : hosts.any (fun h => h == host || h == hh) = true
      · rw [hostKeyFind, if_pos hm]
        constructor
        · intro hcontra
          exact absurd hcontra (by simp)
        · intro h
          rcases List.any_eq_true.mp hm with ⟨x, hx, hor⟩
          have hxx := h hosts key (List.mem_cons_self _ _) x hx
          rw [Bool.or_eq_true] at hor
          rcases hor with he | he
          · exact absurd (eq_of_beq he) hxx.1
          · exact absurd (eq_of_beq he) hxx.2
      · rw [hostKeyFind, if_neg hm, ih]
        rw [Bool.not_eq_true, List.any_eq_false] at hm
        constructor
        · intro h hosts2 key2 hmem x hx
          rcases List.mem_cons.mp hmem with hmem | hmem
          · have hp := Option.some.inj hmem
            have h1 : hosts2 = hosts := congrArg Prod.fst hp
            subst h1
            have := hm x hx
            constructor
            · intro hcx
              subst hcx
              simp at this
            · intro hcx
              subst hcx
              simp at this
          · exact h hosts2 key2 hmem x hx
        · intro h hosts2 key2 hmem x hx
          exact h hosts2 key2 (List.mem_cons_of_mem _ hmem) x hx

/-- C2 (amended): when the destination URL does not carry secure=true,
host keys are ignored; when it does and a key for the looked-up host is
present in known_hosts, the connection is pinned to that key
(FixedHostKey, so a mismatching server key is rejected); when it does
but no known_hosts line matches the hostname in plain or hashed form,
the host key is ignored as well — the connection is not rejected. A
known_hosts scan returns nothing exactly when no parsed line lists the
host in plain or hashed form. -/
theorem c2_hostkey_policy (identityParses handshakeOk : Bool)
    (hash : String → String) (khFile : Option (List KnownHostsLine))
    (u : SSHURL) (identity : String) (b : BastionModel)
    (hok : (createBastion identityParses handshakeOk hash khFile u identity).1
        = Except.ok b) :
    (parseBoolGo u.secureParam = false →
        b.hostKeyCallback = HostKeyPolicy.insecureIgnore)
      ∧ (∀ key, parseBoolGo u.secureParam = true →
            hostKey hash khFile (lookupHost u) = some key →
            b.hostKeyCallback = HostKeyPolicy.fixedKey key)
      ∧ (parseBoolGo u.secureParam = true →
            hostKey hash khFile (lookupHost u) = none →
            b.hostKeyCallback = HostKeyPolicy.insecureIgnore)
      ∧ (∀ host hh lines, hostKeyFind host hh lines = none ↔
            ∀ hosts key, some (hosts, key) ∈ lines →
              ∀ x ∈ hosts, x ≠ host ∧ x ≠ hh) := by
  have hcb : b.hostKeyCallback = bastionCallback hash khFile u := by
    unfold createBastion at hok
    split at hok
    · exact absurd hok (by simp)
    · split at hok
      · exact absurd hok (by simp)
      · split at hok
        · have hb := Except.ok.inj hok
          rw [← hb]
          rfl
        · exact absurd hok (by simp)
  refine ⟨?_, ?_, ?_, ?_⟩
  · intro hsec
    rw [hcb]
    simp [bastionCallback, hsec]
  · intro key hsec hfind
    rw [hcb]
    simp [bastionCallback, hsec, hfind]
  · intro hsec hfind
    rw [hcb]
    simp [bastionCallback, hsec, hfind]
  · exact fun host hh lines => hostKeyFind_eq_none host hh lines

/-- C10: when the identity path is empty and the destination URL's
userinfo carries no password, CreateBastion fails with the error No
available auth methods before any SSH connection attempt is made. -/
theorem c10_no_auth_methods (identityParses handshakeOk : Bool)
    (hash : String → String) (khFile : Option (List KnownHostsLine))
    (u : SSHURL) (hpw : u.password = none) :
    createBastion identityParses handshakeOk hash khFile u "" =
      (Except.error BastionError.noAuthMethods, false) := by
  unfold createBastion
  have h1 : ¬(0 < ("" : String).length ∧ ¬identityParses = true) := by
    simp
  rw [if_neg h1]
  have h2 : (bastionAuthMethods "" u).isEmpty = true := by
    simp [bastionAuthMethods, hpw]
  rw [if_pos h2]

theorem c2_counterexample :
    parseBoolGo urlSecureDest.secureParam = true
      ∧ hostKey (fun s => s) khEmpty (lookupHost urlSecureDest) = none
      ∧ createBastion true true (fun s => s) khEmpty urlSecureDest "" =
          (Except.ok (bastionOf (fun s => s) khEmpty urlSecureDest ""), true)
      ∧ (bastionOf (fun s => s) khEmpty urlSecureDest "").hostKeyCallback
          = HostKeyPolicy.insecureIgnore :=
  ⟨rfl, rfl, rfl, rfl⟩

theorem c2_hostkey_policy_witness :
    (createBastion true true (fun s => s) khWithHost urlSecureDest "").1
        = Except.ok (bastionOf (fun s => s) khWithHost urlSecureDest "")
      ∧ (bastionOf (fun s => s) khWithHost urlSecureDest "").hostKeyCallback
          = HostKeyPolicy.fixedKey 7 :=
  ⟨rfl,
    (c2_hostkey_policy true true (fun s => s) khWithHost urlSecureDest ""
        (bastionOf (fun s => s) khWithHost urlSecureDest "") rfl).2.1
      7 rfl rfl⟩

theorem c10_no_auth_methods_witness :
    urlNoAuth.password = none
      ∧ createBastion true true (fun s => s) khEmpty urlNoAuth "" =
          (Except.error BastionError.noAuthMethods, false) :=
  ⟨rfl, c10_no_auth_methods true true (fun s => s) khEmpty urlNoAuth rfl⟩

/-! ## Theorems about main (claims C1, C8, C9) -/

/-- C8: under an otherwise valid configuration (no qemu socket and so
no dialect conflict, ssh-port in range, a loadable identity file when
one is given, no PID file), the validation fails with the
all-or-nothing forward-flags error exactly when 1 to 3 of the four
forward flags are specified, and passes when 0 or all 4 are
specified. -/
theorem c8_forward_flags (env : StartupEnv) (f : Flags)
    (hq : f.qemuSocket = "")
    (hp : 1024 ≤ f.sshPort ∧ f.sshPort ≤ 65535)
    (hid : f.forwardIdentity ≠ "" → env.identityStatOk = true)
    (hpid : f.pidFile = "") :
    (validateFlags env f = some StartupError.forwardFlagsIncomplete ↔
        1 ≤ forwardFlagCount f ∧ forwardFlagCount f ≤ 3)
      ∧ ((forwardFlagCount f = 0 ∨ forwardFlagCount f = 4) →
          validateFlags env f = none) := by
  have h1 : ¬(0 < f.qemuSocket.length ∧ ¬env.qemuURLValid = true) := by
    simp [hq]
  have h2 : ¬(0 < f.qemuSocket.length ∧ env.qemuPathExists = true
      ∧ env.qemuSchemeUnix = true) := by
    simp [hq]
  have h3 : ¬(f.vpnkitSocket ≠ "" ∧ f.qemuSocket ≠ "") := by
    simp [hq]
  have h4 : ¬(f.sshPort < 1024 ∨ 65535 < f.sshPort) := by
    omega
  have h5 : ¬(f.forwardIdentity ≠ "" ∧ ¬env.identityStatOk = true) :=
    fun hand => hand.2 (hid hand.1)
  have h6 : ¬(f.pidFile ≠ "" ∧ ¬env.pidFileCreateOk = true) := by
    simp [hpid]
  have h7 : ¬(f.pidFile ≠ "" ∧ ¬env.pidFileWriteOk = true) := by
    simp [hpid]
  unfold validateFlags
  rw [if_neg h1, if_neg h2, if_neg h3, if_neg h4, if_neg h5]
  constructor
  · constructor
    · intro hv
      by_cases hc : 0 < forwardFlagCount f ∧ forwardFlagCount f < 4
      · omega
      · rw [if_neg hc, if_neg h6, if_neg h7] at hv
        exact absurd hv (by simp)
    · intro hc
      rw [if_pos ⟨by omega, by omega⟩]
  · intro hc
    have hnc : ¬(0 < forwardFlagCount f ∧ forwardFlagCount f < 4) := by
      omega
    rw [if_neg hnc, if_neg h6, if_neg h7]

/-- Witness for c8_forward_flags: with only forward-sock specified the
count is 1 and validation reports the all-or-nothing error. -/
theorem c8_forward_flags_witness :
    (validateFlags envBenign
        { flagsDefault with forwardSocket := "/tmp/podman.sock" }
          = some StartupError.forwardFlagsIncomplete ↔
        1 ≤ forwardFlagCount { flagsDefault with forwardSocket := "/tmp/podman.sock" }
          ∧ forwardFlagCount { flagsDefault with forwardSocket := "/tmp/podman.sock" } ≤ 3)
      ∧ ((forwardFlagCount { flagsDefault with forwardSocket := "/tmp/podman.sock" } = 0
            ∨ forwardFlagCount { flagsDefault with forwardSocket := "/tmp/podman.sock" } = 4) →
          validateFlags envBenign
            { flagsDefault with forwardSocket := "/tmp/podman.sock" } = none) :=
  c8_forward_flags envBenign
    { flagsDefault with forwardSocket := "/tmp/podman.sock" }
    rfl (by decide) (fun h => rfl) rfl

/-- C1 (corrected, counterexample): after a successful start, a signal
with no other task failure makes the process exit with status 1, not 0:
the signal watcher returns the error signal caught, which the error
group's Wait reports, and main then sets the exit code to 1. -/
theorem c1_signal_exit_counterexample :
    validateFlags envBenign flagsDefault = none
      ∧ mainOutcome envBenign flagsDefault true false = MainOutcome.exitCode 1
      ∧ MainOutcome.exitCode 1 ≠ MainOutcome.exitCode 0 :=
  ⟨rfl, rfl, by decide⟩

/-- C1 (amended): any fatal start-up error exits with status 1; a
signal still triggers the graceful cancellation path but the process
also exits with status 1 (the signal watcher's error makes the error
group's Wait non-nil); only a run with no signal and no task failure
keeps serving. -/
theorem c1_exit_codes (env : StartupEnv) (f : Flags) (sig task : Bool) :
    (validateFlags env f ≠ none →
        mainOutcome env f sig task = MainOutcome.exitCode 1)
      ∧ (validateFlags env f = none → sig = true →
          mainOutcome env f sig task = MainOutcome.exitCode 1)
      ∧ (validateFlags env f = none → sig = false → task = false →
          mainOutcome env f sig task = MainOutcome.runsForever) := by
  unfold mainOutcome
  cases hv : validateFlags env f with
  | some e =>
    exact ⟨fun _ => rfl, fun h => absurd h (by simp), fun h => absurd h (by simp)⟩
  | none =>
    refine ⟨fun h => absurd rfl h, ?_, ?_⟩
    · intro _ hs
      simp [hs]
    · intro _ hs ht
      simp [hs, ht]

/-- Witness for c1_exit_codes: a fatal ssh-port error exits 1, and a
signal after a good start also exits 1. -/
theorem c1_exit_codes_witness :
    (validateFlags envBenign { flagsDefault with sshPort := 80 } ≠ none
        ∧ mainOutcome envBenign { flagsDefault with sshPort := 80 } false false
            = MainOutcome.exitCode 1)
      ∧ (validateFlags envBenign flagsDefault = none
        ∧ mainOutcome envBenign flagsDefault true false = MainOutcome.exitCode 1) :=
  ⟨⟨by decide,
    (c1_exit_codes envBenign { flagsDefault with sshPort := 80 } false false).1
      (by decide)⟩,
    ⟨rfl, (c1_exit_codes envBenign flagsDefault true false).2.1 rfl rfl⟩⟩

theorem vpnkitLoopTrace_events (d a : Nat → Bool) :
    ∀ fuel i e, e ∈ vpnkitLoopTrace d a fuel i →
      e = RunEvent.vpnkitAcceptCall ∨ e = RunEvent.vpnkitAccepted := by
  intro fuel
  induction fuel with
  | zero => intro i e he; exact absurd he (by simp [vpnkitLoopTrace])
  | succ n ih =>
    intro i e he
    rw [vpnkitLoopTrace] at he
    split at he
    · exact absurd he (by simp)
    · split at he
      · rcases List.mem_cons.mp he with h | h
        · exact Or.inl h
        · rcases List.mem_cons.mp h with h | h
          · exact Or.inr h
          · exact ih (i + 1) e h
      · rcases List.mem_cons.mp he with h | h
        · exact Or.inl h
        · exact ih (i + 1) e h

theorem countEvent_append (e : RunEvent) (a b : List (List RunEvent)) :
    countEvent e (a ++ b) = countEvent e a + countEvent e b := by
  simp [countEvent]

/-- C9: whenever the qemu socket flag is set, among all tasks run
spawns — for any observation horizon of the vpnkit loop — Accept is
called on the qemu listener exactly once for the whole process
lifetime; when that accept succeeds, exactly one connection is
accepted and handed to AcceptQemu; and the qemu task's trace ends
there, so no further connection is ever accepted on that listener. -/
theorem c9_qemu_single_accept (cfg : RunConfig) (env : RunEnv) (fuel : Nat)
    (hq : cfg.qemuSocket ≠ "") :
    countEvent RunEvent.qemuAcceptCall (runTaskTraces cfg env fuel) = 1
      ∧ (env.qemuAcceptOk = true →
          countEvent RunEvent.qemuAccepted (runTaskTraces cfg env fuel) = 1
            ∧ countEvent RunEvent.qemuHandled (runTaskTraces cfg env fuel) = 1)
      ∧ (qemuAcceptTrace env.qemuAcceptOk = [RunEvent.qemuAcceptCall]
          ∨ qemuAcceptTrace env.qemuAcceptOk =
              [RunEvent.qemuAcceptCall, RunEvent.qemuAccepted,
                RunEvent.qemuHandled]) := by
  have hvp : ∀ e, e ≠ RunEvent.vpnkitAcceptCall → e ≠ RunEvent.vpnkitAccepted →
      (vpnkitLoopTrace env.vpnkitCtxDone env.vpnkitAcceptOk fuel 0).count e = 0 := by
    intro e h1 h2
    refine List.count_eq_zero.mpr ?_
    intro hmem
    rcases vpnkitLoopTrace_events env.vpnkitCtxDone env.vpnkitAcceptOk fuel 0 e hmem
      with h | h
    · exact h1 h
    · exact h2 h
  have hcnt : ∀ e, e ≠ RunEvent.vpnkitAcceptCall → e ≠ RunEvent.vpnkitAccepted →
      countEvent e (runTaskTraces cfg env fuel)
        = (qemuCloserTrace.count e) + (qemuAcceptTrace env.qemuAcceptOk).count e
          + cfg.endpoints * ([RunEvent.httpServe].count e)
          + (if cfg.forwardSocket ≠ "" then ([RunEvent.sshForwardServe].count e)
             else 0) := by
    intro e h1 h2
    unfold runTaskTraces
    rw [countEvent_append, countEvent_append, countEvent_append, countEvent_append]
    have hrep : countEvent e (List.replicate cfg.endpoints [RunEvent.httpServe])
        = cfg.endpoints * ([RunEvent.httpServe].count e) := by
      simp [countEvent, List.map_replicate, List.sum_replicate]
    have hdbg : countEvent e (if cfg.debug then [([] : List RunEvent)] else [])
        = 0 := by
      by_cases hb : cfg.debug <;> simp [hb, countEvent]
    have hvpn : countEvent e (if cfg.vpnkitSocket ≠ "" then
        [vpnkitLoopTrace env.vpnkitCtxDone env.vpnkitAcceptOk fuel 0] else [])
          = 0 := by
      by_cases hb : cfg.vpnkitSocket ≠ ""
      · simp [hb, countEvent, hvp e h1 h2]
      · simp [hb, countEvent]
    have hqemu : countEvent e (if cfg.qemuSocket ≠ "" then
        [qemuCloserTrace, qemuAcceptTrace env.qemuAcceptOk] else [])
          = (qemuCloserTrace.count e)
            + (qemuAcceptTrace env.qemuAcceptOk).count e := by
      simp [hq, countEvent]
    have hfwd : countEvent e (if cfg.forwardSocket ≠ ""
        then [[RunEvent.sshForwardServe]] else [])
          = (if cfg.forwardSocket ≠ "" then ([RunEvent.sshForwardServe].count e)
             else 0) := by
      by_cases hb : cfg.forwardSocket ≠ "" <;> simp [hb, countEvent]
    rw [hrep, hdbg, hvpn, hqemu, hfwd]
    omega
  refine ⟨?_, ?_, ?_⟩
  · rw [hcnt RunEvent.qemuAcceptCall (by decide) (by decide)]
    cases hok : env.qemuAcceptOk <;>
      by_cases hb : cfg.forwardSocket ≠ "" <;>
        simp [qemuCloserTrace, qemuAcceptTrace, hb]
  · intro hok
    constructor
    · rw [hcnt RunEvent.qemuAccepted (by decide) (by decide)]
      by_cases hb : cfg.forwardSocket ≠ "" <;>
        simp [qemuCloserTrace, qemuAcceptTrace, hok, hb]
    · rw [hcnt RunEvent.qemuHandled (by decide) (by decide)]
      by_cases hb : cfg.forwardSocket ≠ "" <;>
        simp [qemuCloserTrace, qemuAcceptTrace, hok, hb]
  · cases hok : env.qemuAcceptOk
    · exact Or.inl (by simp [qemuAcceptTrace])
    · exact Or.inr (by simp [qemuAcceptTrace])

/-- Witness for c9_qemu_single_accept at a concrete configuration and
horizon. -/
theorem c9_qemu_single_accept_witness :
    countEvent RunEvent.qemuAcceptCall (runTaskTraces cfgQemu envQemu 5) = 1
      ∧ countEvent RunEvent.qemuHandled (runTaskTraces cfgQemu envQemu 5) = 1 :=
  ⟨(c9_qemu_single_accept cfgQemu envQemu 5 (by decide)).1,
    ((c9_qemu_single_accept cfgQemu envQemu 5 (by decide)).2.1 rfl).2⟩

end GvProxy
